import Mathlib

/-!
Shallow embedding of the two agent adapters of `cvdp_benchmark`
(`src/examples/agent_codex/agent.py` and `src/examples/agent_claude/agent.py`).

The process environment is modelled as a finite association list from variable
names to values; the filesystem as a finite association list from paths to
entries (regular file, directory, or symbolic link).  `os.path.expandvars ∘
os.path.expanduser` (the body of `expand_path`) is a library call and is
modelled as an opaque parameter `expand : String → String`; `shlex.split` is
likewise passed as a parameter `split : String → List String` wherever the
adapters call it.  The subprocess exit code is a parameter `subExit : Int`.
-/

namespace Agent

/-- ASCII whitespace, the characters Python's `str.strip()` removes. -/
def isSpace (c : Char) : Bool :=
  c = ' ' ∨ c = '\t' ∨ c = '\n' ∨ c = '\r' ∨ c = '\x0b' ∨ c = '\x0c'

/-- Python `s.strip()`: drop leading and trailing whitespace. -/
def strip (s : String) : String :=
  String.mk (((s.data.dropWhile isSpace).reverse.dropWhile isSpace).reverse)

/-- Python `s.lower()` (ASCII case folding suffices for the adapters'
enumerated option values). -/
def lower (s : String) : String :=
  String.mk (s.data.map (fun c =>
    if 'A' ≤ c ∧ c ≤ 'Z' then Char.ofNat (c.toNat + 32) else c))

/-- The process environment: variable name ↦ value (a set-but-empty variable
is present with value `""`; an unset variable is absent). -/
abbrev Env := List (String × String)

/-- `os.getenv name dflt`: the variable's value, or `dflt` when unset. -/
def getenv (env : Env) (name : String) (dflt : String) : String :=
  ((env.find? (fun p => p.1 == name)).map (·.2)).getD dflt

/-- A filesystem entry: a regular file, a directory, or a symbolic link with a
stored target path. -/
inductive Entry where
  | file : Entry
  | dir : Entry
  | symlink : String → Entry
deriving DecidableEq

/-- The filesystem: path ↦ entry, as a finite association list (first binding
for a path wins). -/
abbrev FS := List (String × Entry)

/-- Look up the entry stored at a path (no symlink resolution). -/
def FS.get (fs : FS) (p : String) : Option Entry :=
  ((fs.find? (fun e => e.1 == p)).map (·.2))

/-- Store an entry at a path, replacing any previous binding. -/
def FS.set (fs : FS) (p : String) (e : Entry) : FS :=
  (p, e) :: fs.filter (fun x => x.1 ≠ p)

/-- `os.remove p`: drop the binding at `p` (the entry itself, not its target). -/
def FS.remove (fs : FS) (p : String) : FS :=
  fs.filter (fun x => x.1 ≠ p)

/-- Resolve a path through symbolic links, with fuel bounding the chain length
(the OS bounds symlink traversal; 40 on Linux). -/
def resolvePath (fs : FS) : Nat → String → Option Entry
  | 0, _ => none
  | fuel + 1, p =>
    match FS.get fs p with
    | some (Entry.symlink t) => resolvePath fs fuel t
    | e => e

/-- `os.path.isfile p`: `p` resolves (through symlinks) to a regular file. -/
def isfile (fs : FS) (p : String) : Bool :=
  resolvePath fs 40 p == some Entry.file

/-- `os.path.lexists p`: an entry is present at `p` itself, a dangling
symlink included. -/
def lexists (fs : FS) (p : String) : Bool :=
  (FS.get fs p).isSome

/-- Position just after the last `'/'` of the character list (0 when none),
i.e. `p.rfind('/') + 1` of `posixpath.dirname`. -/
def lastSlashEnd : List Char → Nat
  | [] => 0
  | c :: rest =>
    match lastSlashEnd rest with
    | 0 => if c = '/' then 1 else 0
    | n + 1 => n + 2

/-- `os.path.dirname p` (POSIX): everything up to the last `'/'`, with
trailing slashes stripped unless the head is all slashes. -/
def dirname (p : String) : String :=
  let cs := p.data
  let head := cs.take (lastSlashEnd cs)
  if head ≠ [] ∧ head.any (fun c => c ≠ '/') then
    String.mk ((head.reverse.dropWhile (fun c => c = '/')).reverse)
  else
    String.mk head

/-- `os.makedirs p exist_ok=True`: create `p` and its missing ancestors as
directories; a no-op on the empty path, on the root, and on any path where an
entry already exists.  `fuel` bounds the ancestor recursion. -/
def makedirs (fs : FS) : Nat → String → FS
  | 0, _ => fs
  | fuel + 1, p =>
    if p = "" ∨ p = "/" then fs
    else if (FS.get fs p).isSome then fs
    else
      let fs' := makedirs fs fuel (dirname p)
      FS.set fs' p Entry.dir

/-- `symlink_file source_file dest_file` (both adapters, lines 24–33): expand
both paths; if the source does not resolve to a regular file, return `false`
touching nothing; otherwise create the destination's parent directories,
remove any existing entry at the destination (a dangling symlink included),
link destination → source, and return `true`. -/
def symlink_file (fs : FS) (expand : String → String)
    (source_file dest_file : String) : Bool × FS :=
  let source := expand source_file
  let dest := expand dest_file
  if ¬ isfile fs source then (false, fs)
  else
    let fs₁ := makedirs fs ((dirname dest).length + 1) (dirname dest)
    let fs₂ := if lexists fs₁ dest then FS.remove fs₁ dest else fs₁
    (true, FS.set fs₂ dest (Entry.symlink source))

/-- `resolve_source_file primary_env default_path legacy_env` (both adapters,
lines 36–44): primary variable (trimmed) wins when non-empty; else the legacy
variable (trimmed) when provided and non-empty; else the default path.  The
chosen string is expanded; no filesystem access happens. -/
def resolve_source_file (env : Env) (expand : String → String)
    (primary_env : String) (default_path : String)
    (legacy_env : Option String := none) : String :=
  let primary := strip (getenv env primary_env "")
  if primary ≠ "" then expand primary
  else
    match legacy_env with
    | some lv =>
      let legacy := strip (getenv env lv "")
      if legacy ≠ "" then expand legacy else expand default_path
    | none => expand default_path

/-- `env_truthy name` (both adapters, lines 47–49). -/
def env_truthy (env : Env) (name : String) : Bool :=
  let value := lower (strip (getenv env name ""))
  value ∈ ["1", "true", "yes", "on"]

/-- Per-entry outcome of credential materialization (spec's
`{linked | mounted | missing}`). -/
inductive Outcome where
  | linked : Outcome
  | mounted : Outcome
  | missing : Outcome
deriving DecidableEq

/-- One iteration of the `sync_codex_auth` / `sync_claude_auth` loop body
(codex lines 66–74): a pre-existing regular file at the destination is
reported `mounted` untouched; otherwise `symlink_file` decides between
`linked` and `missing`. -/
def materialize (fs : FS) (expand : String → String)
    (dst src : String) : Outcome × FS :=
  if isfile fs dst then (Outcome.mounted, fs)
  else
    match symlink_file fs expand src dst with
    | (true, fs') => (Outcome.linked, fs')
    | (false, fs') => (Outcome.missing, fs')

/-- A parsed JSON value, as produced by `json.loads` on one output line
(numbers are modelled as integers; the adapters never inspect numeric
fields). -/
inductive Json where
  | null : Json
  | bool : Bool → Json
  | num : Int → Json
  | str : String → Json
  | arr : List Json → Json
  | obj : List (String × Json) → Json

/-- `d.get k` on a JSON object: the field's value, or `none` when absent.
The adapters only call `.get` on objects; on any other value the model
returns `none`. -/
def Json.get : Json → String → Option Json
  | Json.obj fields, k => ((fields.find? (fun f => f.1 == k)).map (·.2))
  | _, _ => none

/-- Python truthiness of a parsed JSON value (`None`, `False`, `0`, `""`,
`[]`, `{}` are falsy). -/
def Json.truthy : Json → Bool
  | Json.null => false
  | Json.bool b => b
  | Json.num n => n != 0
  | Json.str s => s != ""
  | Json.arr xs => !xs.isEmpty
  | Json.obj fields => !fields.isEmpty

/-- `event.get("type") == t`: the event's `type` field equals the string `t`
(a missing or non-string field compares unequal). -/
def typeIs (e : Json) (t : String) : Bool :=
  match Json.get e "type" with
  | some (Json.str s) => s == t
  | _ => false

/-- The text collected from one event by the `final_messages` loop of
`run_codex_json_result` (codex lines 136–144): present when the event is an
`item.completed` whose nested item has type `agent_message` and truthy text. -/
def agent_message_text (e : Json) : Option Json :=
  if typeIs e "item.completed" then
    let item := (Json.get e "item").getD (Json.obj [])
    match Json.get item "type" with
    | some (Json.str s) =>
      if s == "agent_message" then
        let text := (Json.get item "text").getD (Json.str "")
        if text.truthy then some text else none
      else none
    | _ => none
  else none

/-- The summary dictionary printed by `run_codex_json_result`; optional keys
are `Option` fields (`none` = key absent from the dict). -/
structure ResultSummary where
  type : String
  subtype : String
  is_error : Bool
  returncode : Int
  event_count : Nat
  non_json_line_count : Nat
  thread_id : Option Json
  usage : Option Json
  final_message : Option Json

/-- The pure reduction of `run_codex_json_result` (codex lines 117–148): the
parsed event list plus the subprocess exit code and non-JSON line count give
the summary record. -/
def reduce_events (events : List Json) (returncode : Int)
    (non_json_lines : Nat) : ResultSummary :=
  let thread_started := events.find? (fun e => typeIs e "thread.started")
  let tid : Option Json :=
    match thread_started with
    | some e =>
      match Json.get e "thread_id" with
      | some v => if v.truthy then some v else none
      | none => none
    | none => none
  let turn_completed := events.filter (fun e => typeIs e "turn.completed")
  let usage : Option Json :=
    match turn_completed.getLast? with
    | some e =>
      match Json.get e "usage" with
      | some Json.null => none
      | some v => some v
      | none => none
    | none => none
  let final_messages := events.filterMap agent_message_text
  { type := "result"
    subtype := "codex_exec"
    is_error := returncode != 0
    returncode := returncode
    event_count := events.length
    non_json_line_count := non_json_lines
    thread_id := tid
    usage := usage
    final_message := final_messages.getLast? }

/-- `add_codex_tuning_args` (codex lines 82–90). -/
def add_codex_tuning_args (env : Env) (cmd : List String) : List String :=
  let model := strip (getenv env "CODEX_MODEL" "")
  let cmd := if model ≠ "" then cmd ++ ["--model", model] else cmd
  let reasoning_effort := strip (getenv env "CODEX_REASONING_EFFORT" "")
  if reasoning_effort ≠ "" then
    let escaped := (reasoning_effort.replace "\\" "\\\\").replace "\"" "\\\""
    cmd ++ ["-c", "model_reasoning_effort=\"" ++ escaped ++ "\""]
  else cmd

/-- Observable outcome of the codex adapter's `main` (lines 152–203):
returned exit code, whether the agent subprocess was started, the assembled
argument vector, the effective JSON mode, whether the captured/reduced
(`run_codex_json_result`) path was taken, and how many `[WARNING]` lines were
printed (the codex `main` prints none). -/
structure CodexRun where
  exit : Int
  started : Bool
  cmd : List String
  json_mode : String
  usedJsonResult : Bool
  warnings : Nat

/-- Codex `main` lines 173–183: the base invocation, the tuning flags from
`add_codex_tuning_args`, and the shell-split `CODEX_EXEC_ARGS` tokens. -/
def codex_cmd_pre (env : Env) (split : String → List String) : List String :=
  let cmd := ["codex", "exec", "--skip-git-repo-check",
              "--dangerously-bypass-approvals-and-sandbox", "--ephemeral"]
  let cmd := add_codex_tuning_args env cmd
  let extra_args := strip (getenv env "CODEX_EXEC_ARGS" "")
  if extra_args ≠ "" then cmd ++ split extra_args else cmd

/-- Codex `main` lines 185–191: the effective JSON mode — `CODEX_JSON_MODE`
stripped and lowercased, silently replaced by `"result"` when outside the
allow-set, then overridden to `"events"` when `CODEX_TRAJECTORY` is truthy. -/
def codex_json_mode (env : Env) : String :=
  let json_mode := lower (strip (getenv env "CODEX_JSON_MODE" "result"))
  let json_mode := if json_mode ∈ ["result", "events", "off"] then json_mode
                   else "result"
  if env_truthy env "CODEX_TRAJECTORY" then "events" else json_mode

/-- Codex `main` lines 193–196: append `--json` (unless the mode is `off` or
the flag is already present), then the prompt as final argument. -/
def codex_cmd (env : Env) (split : String → List String)
    (prompt : String) : List String :=
  let cmd := codex_cmd_pre env split
  let cmd := if codex_json_mode env ≠ "off" ∧ "--json" ∉ cmd
             then cmd ++ ["--json"] else cmd
  cmd ++ [prompt]

/-- The codex adapter's `main` (lines 152–203).  The HOME pinning and
`sync_codex_auth` touch only the filesystem (modelled by `materialize`);
`shutil.which`, `read_prompt`'s string result, and the subprocess exit code
enter as the parameters `codexFound`, `prompt`, `subExit`; `shlex.split` is
the parameter `split`.  `warnings` is 0 in every branch: the codex `main`
prints no `[WARNING]` line.  Both the reduced path (`run_codex_json_result`,
taken when the mode is `result`) and the passthrough path return the
subprocess's own exit code. -/
def codex_main (env : Env) (split : String → List String)
    (codexFound : Bool) (prompt : String) (subExit : Int) : CodexRun :=
  if ¬ codexFound then ⟨1, false, [], "", false, 0⟩
  else if prompt = "" then ⟨1, false, [], "", false, 0⟩
  else
    ⟨subExit, true, codex_cmd env split prompt, codex_json_mode env,
     codex_json_mode env == "result", 0⟩

/-- Observable outcome of the claude adapter's `main` (lines 80–136). -/
structure ClaudeRun where
  exit : Int
  started : Bool
  cmd : List String
  effort_level : String
  warnings : Nat

/-- Claude `main` line 90: `CLAUDE_CODE_EFFORT_LEVEL` stripped and
lowercased. -/
def claude_effort_raw (env : Env) : String :=
  lower (strip (getenv env "CLAUDE_CODE_EFFORT_LEVEL" ""))

/-- Claude `main` lines 91–95: a value outside the allow-set falls back to
`"high"`. -/
def claude_effort_level (env : Env) : String :=
  if claude_effort_raw env ∈ ["low", "medium", "high"] then
    claude_effort_raw env
  else "high"

/-- Claude `main` lines 92–93: one `[WARNING]` line is printed exactly when
the effort value is outside the allow-set and non-empty after stripping. -/
def claude_warning_count (env : Env) : Nat :=
  if claude_effort_raw env ∉ ["low", "medium", "high"]
      ∧ claude_effort_raw env ≠ "" then 1 else 0

/-- Claude `main` lines 109–127: the base invocation, the model flag, the
optional `--max-turns` flags, and the trajectory-mode streaming flags. -/
def claude_cmd_flags (env : Env) : List String :=
  let cmd := ["claude", "-p", "--dangerously-skip-permissions",
              "--model", getenv env "CLAUDE_MODEL" "opus"]
  let max_turns := strip (getenv env "CLAUDE_MAX_TURNS" "")
  let cmd := if max_turns ≠ "" then cmd ++ ["--max-turns", max_turns] else cmd
  if env_truthy env "CLAUDE_TRAJECTORY" then
    let cmd := if "--output-format" ∉ cmd
               then cmd ++ ["--output-format", "stream-json"] else cmd
    let cmd := if "--include-partial-messages" ∉ cmd
               then cmd ++ ["--include-partial-messages"] else cmd
    if "--verbose" ∉ cmd then cmd ++ ["--verbose"] else cmd
  else cmd

/-- Claude `main` lines 129–132: the shell-split `CLAUDE_EXEC_ARGS` tokens
appended after every flag, then the prompt as final argument. -/
def claude_cmd (env : Env) (split : String → List String)
    (prompt : String) : List String :=
  let cmd := claude_cmd_flags env
  let extra_args := strip (getenv env "CLAUDE_EXEC_ARGS" "")
  let cmd := if extra_args ≠ "" then cmd ++ split extra_args else cmd
  cmd ++ [prompt]

/-- The claude adapter's `main` (lines 80–136), with the same external-call
parameters as `codex_main`.  The effort-level normalization (lines 90–96)
runs before the binary check; `warnings` counts the `[WARNING]` lines it
prints. -/
def claude_main (env : Env) (split : String → List String)
    (claudeFound : Bool) (prompt : String) (subExit : Int) : ClaudeRun :=
  if ¬ claudeFound then
    ⟨1, false, [], claude_effort_level env, claude_warning_count env⟩
  else if prompt = "" then
    ⟨1, false, [], claude_effort_level env, claude_warning_count env⟩
  else
    ⟨subExit, true, claude_cmd env split prompt, claude_effort_level env,
     claude_warning_count env⟩

/-- Tokenizer loop for `splitWs`: split the characters on space runs,
accumulating the current (reversed) token. -/
def wsTokens : List Char → List Char → List String
  | [], acc => if acc = [] then [] else [String.mk acc.reverse]
  | c :: rest, acc =>
    if c = ' ' then
      if acc = [] then wsTokens rest []
      else String.mk acc.reverse :: wsTokens rest []
    else wsTokens rest (c :: acc)

/-- Modelled from the spec: `shlex.split` is an external library routine the
spec describes as "shell-word-splitting semantics"; on inputs free of quotes
and escapes it splits on whitespace runs, which is all the concrete instances
below need. -/
def splitWs (s : String) : List String :=
  wsTokens s.data []

/-- The first event of the sequence satisfying a predicate (spec's "the
*first* Event whose discriminator equals …"). -/
def firstMatching (p : Json → Bool) (events : List Json) : Option Json :=
  (events.filter p).head?

/-- The last event of the sequence satisfying a predicate (spec's "the
*last* Event whose discriminator equals …"). -/
def lastMatching (p : Json → Bool) (events : List Json) : Option Json :=
  events.reverse.find? p

/-- The synthetic event sequence of the spec's testable property: one
`thread.started` event with `thread_id = "t1"`, two `turn.completed` events
with distinct usage payloads, and one `item.completed` / `agent_message`
event with non-empty text. -/
def demoEvents : List Json :=
  [Json.obj [("type", Json.str "thread.started"),
             ("thread_id", Json.str "t1")],
   Json.obj [("type", Json.str "turn.completed"),
             ("usage", Json.obj [("input_tokens", Json.num 1)])],
   Json.obj [("type", Json.str "turn.completed"),
             ("usage", Json.obj [("input_tokens", Json.num 2)])],
   Json.obj [("type", Json.str "item.completed"),
             ("item", Json.obj [("type", Json.str "agent_message"),
                                ("text", Json.str "done")])]]

/-- A small event sequence in which each optional summary field has source
data. -/
def sparseEvents : List Json :=
  [Json.obj [("type", Json.str "thread.started"),
             ("thread_id", Json.str "x")],
   Json.obj [("type", Json.str "turn.completed"), ("usage", Json.num 3)],
   Json.obj [("type", Json.str "item.completed"),
             ("item", Json.obj [("type", Json.str "agent_message"),
                                ("text", Json.str "m")])]]

theorem get_set_self (fs : FS) (p : String) (e : Entry) :
    FS.get (FS.set fs p e) p = some e := by
  simp [FS.get, FS.set]

theorem get_set_ne (fs : FS) (p q : String) (e : Entry) (h : q ≠ p) :
    FS.get (FS.set fs p e) q = FS.get fs q := by
  unfold FS.get FS.set
  rw [List.find?_cons_of_neg]
  · induction fs with
    | nil => rfl
    | cons hd tl ih =>
      by_cases hp : hd.1 = p
      · rw [List.filter_cons_of_neg (by simp [hp]),
            List.find?_cons_of_neg _ (by simp [hp]; exact Ne.symm h)]
        exact ih
      · rw [List.filter_cons_of_pos (by simp [hp])]
        by_cases hq : hd.1 = q
        · rw [List.find?_cons_of_pos _ (by simp [hq]),
              List.find?_cons_of_pos _ (by simp [hq])]
        · rw [List.find?_cons_of_neg _ (by simp [hq]),
              List.find?_cons_of_neg _ (by simp [hq])]
          exact ih
  · simp [Ne.symm h]

theorem get_remove_ne (fs : FS) (p q : String) (h : q ≠ p) :
    FS.get (FS.remove fs p) q = FS.get fs q := by
  unfold FS.get FS.remove
  induction fs with
  | nil => rfl
  | cons hd tl ih =>
    by_cases hp : hd.1 = p
    · rw [List.filter_cons_of_neg (by simp [hp]),
          List.find?_cons_of_neg _ (by simp [hp]; exact Ne.symm h)]
      exact ih
    · rw [List.filter_cons_of_pos (by simp [hp])]
      by_cases hq : hd.1 = q
      · rw [List.find?_cons_of_pos _ (by simp [hq]),
            List.find?_cons_of_pos _ (by simp [hq])]
      · rw [List.find?_cons_of_neg _ (by simp [hq]),
            List.find?_cons_of_neg _ (by simp [hq])]
        exact ih

theorem makedirs_get_preserved (fuel : Nat) (fs : FS) (p q : String) (e : Entry)
    (h : FS.get fs q = some e) :
    FS.get (makedirs fs fuel p) q = some e := by
  induction fuel generalizing p with
  | zero => exact h
  | succ n ih =>
    show FS.get (if p = "" ∨ p = "/" then fs
      else if (FS.get fs p).isSome then fs
      else FS.set (makedirs fs n (dirname p)) p Entry.dir) q = some e
    by_cases h0 : p = "" ∨ p = "/"
    · rw [if_pos h0]; exact h
    · rw [if_neg h0]
      by_cases h1 : (FS.get fs p).isSome = true
      · rw [if_pos h1]; exact h
      · rw [if_neg h1]
        have hpq : q ≠ p := fun hqp => h1 (by rw [← hqp, h]; rfl)
        rw [get_set_ne _ _ _ _ hpq]
        exact ih (dirname p)

theorem makedirs_get_self (fuel : Nat) (fs : FS) (p : String)
    (hp : p ≠ "") (hp' : p ≠ "/") :
    (FS.get (makedirs fs (fuel + 1) p) p).isSome = true := by
  show (FS.get (if p = "" ∨ p = "/" then fs
    else if (FS.get fs p).isSome then fs
    else FS.set (makedirs fs fuel (dirname p)) p Entry.dir) p).isSome = true
  rw [if_neg (by simp [hp, hp'])]
  by_cases h1 : (FS.get fs p).isSome = true
  · rw [if_pos h1]; exact h1
  · rw [if_neg h1, get_set_self]; rfl

theorem resolvePath_get_file (fs : FS) (p : String) (fuel : Nat)
    (h : FS.get fs p = some Entry.file) (hf : fuel ≠ 0) :
    resolvePath fs fuel p = some Entry.file := by
  cases fuel with
  | zero => exact absurd rfl hf
  | succ n => unfold resolvePath; rw [h]

theorem isfile_of_get_file (fs : FS) (p : String)
    (h : FS.get fs p = some Entry.file) : isfile fs p = true := by
  simp [isfile, resolvePath_get_file fs p 40 h (by norm_num)]

theorem isfile_of_symlink_to_file (fs : FS) (p t : String)
    (hp : FS.get fs p = some (Entry.symlink t))
    (ht : FS.get fs t = some Entry.file) : isfile fs p = true := by
  have : resolvePath fs 40 p = some Entry.file := by
    rw [show (40 : Nat) = 39 + 1 from rfl]
    unfold resolvePath
    rw [hp]
    exact resolvePath_get_file fs t 39 ht (by norm_num)
  simp [isfile, this]

theorem symlink_file_pos (fs : FS) (expand : String → String)
    (src dst : String) (hsrc : isfile fs (expand src) = true) :
    (symlink_file fs expand src dst).1 = true
    ∧ FS.get (symlink_file fs expand src dst).2 (expand dst)
        = some (Entry.symlink (expand src))
    ∧ (∀ q e, q ≠ expand dst → FS.get fs q = some e →
        FS.get (symlink_file fs expand src dst).2 q = some e)
    ∧ (dirname (expand dst) ≠ "" → dirname (expand dst) ≠ "/" →
        (FS.get (symlink_file fs expand src dst).2 (dirname (expand dst))).isSome
          = true) := by
  have heq : symlink_file fs expand src dst
      = (true, FS.set
          (if lexists (makedirs fs ((dirname (expand dst)).length + 1)
              (dirname (expand dst))) (expand dst)
           then FS.remove (makedirs fs ((dirname (expand dst)).length + 1)
              (dirname (expand dst))) (expand dst)
           else makedirs fs ((dirname (expand dst)).length + 1)
              (dirname (expand dst)))
          (expand dst) (Entry.symlink (expand src))) := by
    show (if ¬ isfile fs (expand src) then ((false : Bool), fs) else _) = _
    rw [if_neg (by simp [hsrc])]
  rw [heq]
  refine ⟨rfl, get_set_self _ _ _, ?_, ?_⟩
  · intro q e hq hget
    show FS.get (FS.set _ (expand dst) (Entry.symlink (expand src))) q = some e
    rw [get_set_ne _ _ _ _ hq]
    by_cases hl : lexists (makedirs fs ((dirname (expand dst)).length + 1)
        (dirname (expand dst))) (expand dst) = true
    · rw [if_pos hl, get_remove_ne _ _ _ hq]
      exact makedirs_get_preserved _ _ _ _ _ hget
    · rw [if_neg hl]
      exact makedirs_get_preserved _ _ _ _ _ hget
  · intro h0 h1
    by_cases hd : dirname (expand dst) = expand dst
    · rw [hd, get_set_self]; rfl
    · show (FS.get (FS.set _ (expand dst) (Entry.symlink (expand src)))
        (dirname (expand dst))).isSome = true
      rw [get_set_ne _ _ _ _ hd]
      have hmk : (FS.get (makedirs fs ((dirname (expand dst)).length + 1)
          (dirname (expand dst))) (dirname (expand dst))).isSome = true :=
        makedirs_get_self _ _ _ h0 h1
      by_cases hl : lexists (makedirs fs ((dirname (expand dst)).length + 1)
          (dirname (expand dst))) (expand dst) = true
      · rw [if_pos hl, get_remove_ne _ _ _ hd]
        exact hmk
      · rw [if_neg hl]
        exact hmk

theorem materialize_linked_eq (fs : FS) (expand : String → String)
    (dst src : String) (h1 : isfile fs dst = false)
    (h2 : isfile fs (expand src) = true) :
    materialize fs expand dst src
      = (Outcome.linked, (symlink_file fs expand src dst).2) := by
  unfold materialize
  simp only [h1, Bool.false_eq_true, if_false]
  have hb := (symlink_file_pos fs expand src dst h2).1
  rcases hsf : symlink_file fs expand src dst with ⟨b, fs2⟩
  rw [hsf] at hb
  simp only at hb
  subst hb
  rfl

/-- C1: `resolve_source_file` is a strict three-tier precedence chain: a
non-empty (after stripping) primary variable wins regardless of the legacy
variable or the default; else a provided, non-empty legacy variable wins;
else the default path is used.  In each case the result is the expansion of
the chosen string, and no filesystem check occurs (the function never reads
the filesystem model). -/
theorem resolve_source_file_precedence (env : Env) (expand : String → String)
    (primary_env default_path : String) (legacy_env : Option String) :
    (strip (getenv env primary_env "") ≠ "" →
      resolve_source_file env expand primary_env default_path legacy_env
        = expand (strip (getenv env primary_env "")))
    ∧ (∀ lv, legacy_env = some lv → strip (getenv env primary_env "") = "" →
        strip (getenv env lv "") ≠ "" →
        resolve_source_file env expand primary_env default_path legacy_env
          = expand (strip (getenv env lv "")))
    ∧ (strip (getenv env primary_env "") = "" →
        (∀ lv, legacy_env = some lv → strip (getenv env lv "") = "") →
        resolve_source_file env expand primary_env default_path legacy_env
          = expand default_path) := by
  refine ⟨?_, ?_, ?_⟩
  · intro h
    simp [resolve_source_file, h]
  · intro lv hlv hp hl
    subst hlv
    simp [resolve_source_file, hp, hl]
  · intro hp hl
    cases hlv : legacy_env with
    | none => simp [resolve_source_file, hp, hlv]
    | some lv => simp [resolve_source_file, hp, hlv, hl lv hlv]

/-- Witness for C1: the primary variable wins over a set legacy variable, the
legacy variable wins when the primary is unset, and the default is used when
both are unset or empty. -/
theorem resolve_source_file_precedence_witness :
    resolve_source_file [("P", " /p "), ("L", "/l")] id "P" "/d" (some "L")
      = "/p"
    ∧ resolve_source_file [("P", "  "), ("L", "/l")] id "P" "/d" (some "L")
      = "/l"
    ∧ resolve_source_file [("L", " ")] id "P" "/d" (some "L") = "/d" := by
  refine ⟨?_, ?_, ?_⟩
  · have h := (resolve_source_file_precedence [("P", " /p "), ("L", "/l")] id
      "P" "/d" (some "L")).1 (by decide)
    rw [h]; decide
  · have h := (resolve_source_file_precedence [("P", "  "), ("L", "/l")] id
      "P" "/d" (some "L")).2.1 "L" rfl (by decide) (by decide)
    rw [h]; decide
  · have h := (resolve_source_file_precedence [("L", " ")] id
      "P" "/d" (some "L")).2.2 (by decide)
      (by intro lv hlv; cases hlv; decide)
    rw [h]; rfl

/-- C2: materializing one credential entry: a regular file already at the
destination gives `mounted` with the filesystem untouched; otherwise a source
that is not a regular file gives `missing` with the filesystem untouched;
otherwise the outcome is `linked`, the destination holds a symlink to the
(expanded) source, every other pre-existing entry is preserved (in particular
any entry previously at the destination is replaced), and the destination's
parent directory exists afterwards. -/
theorem materialize_cases (fs : FS) (expand : String → String)
    (dst src : String) :
    (isfile fs dst = true →
      materialize fs expand dst src = (Outcome.mounted, fs))
    ∧ (isfile fs dst = false → isfile fs (expand src) = false →
        materialize fs expand dst src = (Outcome.missing, fs))
    ∧ (isfile fs dst = false → isfile fs (expand src) = true →
        (materialize fs expand dst src).1 = Outcome.linked
        ∧ FS.get (materialize fs expand dst src).2 (expand dst)
            = some (Entry.symlink (expand src))
        ∧ (∀ p e, p ≠ expand dst → FS.get fs p = some e →
            FS.get (materialize fs expand dst src).2 p = some e)
        ∧ (dirname (expand dst) ≠ "" → dirname (expand dst) ≠ "/" →
            (FS.get (materialize fs expand dst src).2
              (dirname (expand dst))).isSome = true)) := by
  refine ⟨?_, ?_, ?_⟩
  · intro h
    show (if isfile fs dst then (Outcome.mounted, fs) else _) = _
    rw [if_pos h]
  · intro h1 h2
    have hsf : symlink_file fs expand src dst = (false, fs) := by
      show (if ¬ isfile fs (expand src) then ((false : Bool), fs) else _) = _
      rw [if_pos (by simp [h2])]
    unfold materialize
    rw [if_neg (by simp [h1]), hsf]
  · intro h1 h2
    have hme := materialize_linked_eq fs expand dst src h1 h2
    have hsp := symlink_file_pos fs expand src dst h2
    rw [hme]
    exact ⟨rfl, hsp.2.1, hsp.2.2.1, hsp.2.2.2⟩

/-- Witness for C2: a pre-mounted destination reports `mounted` untouched; a
missing source reports `missing` untouched; an existing source gets linked,
with the symlink recorded at the destination. -/
theorem materialize_cases_witness :
    materialize [("/h/.codex/auth.json", Entry.file)] id
      "/h/.codex/auth.json" "/s"
      = (Outcome.mounted, [("/h/.codex/auth.json", Entry.file)])
    ∧ materialize [] id "/h/.codex/auth.json" "/s" = (Outcome.missing, [])
    ∧ (materialize [("/s", Entry.file)] id "/d/auth.json" "/s").1
        = Outcome.linked
    ∧ FS.get (materialize [("/s", Entry.file)] id "/d/auth.json" "/s").2
        "/d/auth.json" = some (Entry.symlink "/s") := by
  refine ⟨?_, ?_, ?_, ?_⟩
  · exact (materialize_cases [("/h/.codex/auth.json", Entry.file)] id
      "/h/.codex/auth.json" "/s").1 (by decide)
  · exact (materialize_cases [] id "/h/.codex/auth.json" "/s").2.1
      (by decide) (by decide)
  · exact ((materialize_cases [("/s", Entry.file)] id "/d/auth.json" "/s").2.2
      (by decide) (by decide)).1
  · exact ((materialize_cases [("/s", Entry.file)] id "/d/auth.json" "/s").2.2
      (by decide) (by decide)).2.1

/-- C5: materialization is idempotent: when a call reports `linked` and the
source (a regular file, unchanged) and the concrete destination path are
unaffected by expansion, a second call on the resulting filesystem reports
`mounted` — not an error — and changes nothing. -/
theorem materialize_idempotent (fs : FS) (expand : String → String)
    (dst src : String) (fs' : FS)
    (hexp : expand dst = dst)
    (hsrc : FS.get fs (expand src) = some Entry.file)
    (h : materialize fs expand dst src = (Outcome.linked, fs')) :
    materialize fs' expand dst src = (Outcome.mounted, fs') := by
  have h2 : isfile fs (expand src) = true := isfile_of_get_file _ _ hsrc
  have h1 : isfile fs dst = false := by
    cases hb : isfile fs dst
    · rfl
    · exfalso
      have hmm : materialize fs expand dst src = (Outcome.mounted, fs) := by
        show (if isfile fs dst then (Outcome.mounted, fs) else _) = _
        rw [if_pos hb]
      rw [hmm] at h
      exact Outcome.noConfusion (congrArg Prod.fst h)
  have hme := materialize_linked_eq fs expand dst src h1 h2
  have heq := hme.symm.trans h
  have hfs' : (symlink_file fs expand src dst).2 = fs' :=
    congrArg Prod.snd heq
  subst hfs'
  have hsp := symlink_file_pos fs expand src dst h2
  have hne : expand src ≠ dst := by
    intro hh
    rw [hh] at hsrc
    rw [isfile_of_get_file fs dst hsrc] at h1
    exact absurd h1 (by decide)
  have hdst : FS.get (symlink_file fs expand src dst).2 dst
      = some (Entry.symlink (expand src)) := by
    have := hsp.2.1
    rwa [hexp] at this
  have hsrc' : FS.get (symlink_file fs expand src dst).2 (expand src)
      = some Entry.file :=
    hsp.2.2.1 (expand src) Entry.file (by rw [hexp]; exact hne) hsrc
  have hisf : isfile (symlink_file fs expand src dst).2 dst = true :=
    isfile_of_symlink_to_file _ dst (expand src) hdst hsrc'
  show (if isfile (symlink_file fs expand src dst).2 dst
      then (Outcome.mounted, (symlink_file fs expand src dst).2) else _) = _
  rw [if_pos hisf]

/-- Witness for C5: linking a source file into an empty home and then
materializing again reports `mounted` and leaves the filesystem alone. -/
theorem materialize_idempotent_witness :
    materialize (materialize [("/s", Entry.file)] id "/d/auth.json" "/s").2 id
      "/d/auth.json" "/s"
      = (Outcome.mounted,
         (materialize [("/s", Entry.file)] id "/d/auth.json" "/s").2) := by
  exact materialize_idempotent [("/s", Entry.file)] id "/d/auth.json" "/s"
    (materialize [("/s", Entry.file)] id "/d/auth.json" "/s").2 rfl
    (by decide) (by decide)

/-- C10: when the resolved source is not a regular file, `symlink_file`
returns `false` with the filesystem exactly as it was — in particular a
pre-existing (possibly dangling) symlink at the destination is untouched. -/
theorem symlink_file_missing_source (fs : FS) (expand : String → String)
    (source_file dest_file : String)
    (h : isfile fs (expand source_file) = false) :
    symlink_file fs expand source_file dest_file = (false, fs) := by
  show (if ¬ isfile fs (expand source_file) then ((false : Bool), fs) else _)
    = _
  rw [if_pos (by simp [h])]

/-- Witness for C10: with a dangling symlink already at the destination and a
nonexistent source, `symlink_file` reports `false` and the dangling symlink
is still there, unchanged. -/
theorem symlink_file_missing_source_witness :
    symlink_file [("/dst/auth.json", Entry.symlink "/gone")] id "/missing"
      "/dst/auth.json"
      = (false, [("/dst/auth.json", Entry.symlink "/gone")])
    ∧ FS.get [("/dst/auth.json", Entry.symlink "/gone")] "/dst/auth.json"
      = some (Entry.symlink "/gone") := by
  exact ⟨symlink_file_missing_source _ id _ _ (by decide), by decide⟩

theorem find?_eq_filter_head? {α : Type} (l : List α) (p : α → Bool) :
    l.find? p = (l.filter p).head? := by
  induction l with
  | nil => rfl
  | cons x xs ih =>
    by_cases h : p x
    · rw [List.find?_cons_of_pos _ h, List.filter_cons_of_pos h,
        List.head?_cons]
    · rw [List.find?_cons_of_neg _ h, List.filter_cons_of_neg h, ih]

theorem filter_getLast?_eq_reverse_find? {α : Type} (l : List α)
    (p : α → Bool) :
    (l.filter p).getLast? = l.reverse.find? p := by
  rw [List.getLast?_eq_head?_reverse, ← List.filter_reverse,
    find?_eq_filter_head?]

theorem head?_filterMap {α β : Type} (l : List α) (f : α → Option β) :
    (l.filterMap f).head? = (l.find? (fun x => (f x).isSome)).bind f := by
  induction l with
  | nil => rfl
  | cons x xs ih =>
    cases h : f x <;> simp [List.filterMap_cons, List.find?_cons, h, ih]

theorem getLast?_filterMap {α β : Type} (l : List α) (f : α → Option β) :
    (l.filterMap f).getLast?
      = (l.reverse.find? (fun x => (f x).isSome)).bind f := by
  rw [List.getLast?_eq_head?_reverse, ← List.filterMap_reverse,
    head?_filterMap]

/-- C3: the structured-result reducer takes `thread_id` from the first
`thread.started` event (only when truthy), `usage` from the last
`turn.completed` event (only when present and not null), and `final_message`
from the last `item.completed` event carrying a non-empty `agent_message`
text; on the spec's synthetic sequence (one `thread.started` with
`thread_id = "t1"`, two `turn.completed` events with distinct usage payloads,
one qualifying agent message) it yields `thread_id = "t1"`, the second
`turn.completed` event's usage, and that message text. -/
theorem reduce_events_reduction_rules :
    (∀ (events : List Json) (rc : Int) (nj : Nat),
      (reduce_events events rc nj).thread_id
        = (firstMatching (fun e => typeIs e "thread.started") events).bind
            (fun e =>
              match Json.get e "thread_id" with
              | some v => if v.truthy then some v else none
              | none => none))
    ∧ (∀ (events : List Json) (rc : Int) (nj : Nat),
        (reduce_events events rc nj).usage
          = (lastMatching (fun e => typeIs e "turn.completed") events).bind
              (fun e =>
                match Json.get e "usage" with
                | some Json.null => none
                | some v => some v
                | none => none))
    ∧ (∀ (events : List Json) (rc : Int) (nj : Nat),
        (reduce_events events rc nj).final_message
          = (lastMatching (fun e => (agent_message_text e).isSome)
              events).bind agent_message_text)
    ∧ (reduce_events demoEvents 0 0).thread_id = some (Json.str "t1")
    ∧ (reduce_events demoEvents 0 0).usage
        = some (Json.obj [("input_tokens", Json.num 2)])
    ∧ (reduce_events demoEvents 0 0).final_message
        = some (Json.str "done") := by
  refine ⟨?_, ?_, ?_, rfl, rfl, rfl⟩
  · intro events rc nj
    simp only [reduce_events, firstMatching, ← find?_eq_filter_head?]
    cases events.find? (fun e => typeIs e "thread.started") <;> rfl
  · intro events rc nj
    simp only [reduce_events, lastMatching,
      ← filter_getLast?_eq_reverse_find?]
    cases (events.filter (fun e => typeIs e "turn.completed")).getLast? <;> rfl
  · intro events rc nj
    simp only [reduce_events]
    exact getLast?_filterMap events agent_message_text

/-- C6: the summary is sparse: each optional field is present only when its
source data exists; in particular reducing an empty event sequence yields
`event_count = 0` with `thread_id`, `usage` and `final_message` all absent. -/
theorem reduce_events_sparse :
    (∀ (rc : Int) (nj : Nat),
      (reduce_events [] rc nj).event_count = 0
      ∧ (reduce_events [] rc nj).thread_id = none
      ∧ (reduce_events [] rc nj).usage = none
      ∧ (reduce_events [] rc nj).final_message = none)
    ∧ (∀ (events : List Json) (rc : Int) (nj : Nat),
        ((reduce_events events rc nj).thread_id.isSome = true →
          ∃ e, e ∈ events ∧ typeIs e "thread.started" = true
            ∧ ∃ v, Json.get e "thread_id" = some v ∧ v.truthy = true)
        ∧ ((reduce_events events rc nj).usage.isSome = true →
            ∃ e, e ∈ events ∧ typeIs e "turn.completed" = true
              ∧ ∃ v, Json.get e "usage" = some v ∧ v ≠ Json.null)
        ∧ ((reduce_events events rc nj).final_message.isSome = true →
            ∃ e, e ∈ events ∧ (agent_message_text e).isSome = true)) := by
  refine ⟨fun rc nj => ⟨rfl, rfl, rfl, rfl⟩, fun events rc nj => ⟨?_, ?_, ?_⟩⟩
  · intro h
    simp only [reduce_events] at h
    cases hf : events.find? (fun e => typeIs e "thread.started") with
    | none => rw [hf] at h; simp at h
    | some e =>
      have h' : (match Json.get e "thread_id" with
          | some v => if v.truthy then some v else none
          | none => none).isSome = true := by rw [hf] at h; exact h
      cases hg : Json.get e "thread_id" with
      | none => rw [hg] at h'; simp at h'
      | some v =>
        rw [hg] at h'
        have h'' : (if v.truthy then some v else none).isSome = true := h'
        cases ht : v.truthy with
        | false => rw [ht] at h''; simp at h''
        | true =>
          have hp : typeIs e "thread.started" = true := by
            simpa using List.find?_some hf
          exact ⟨e, List.mem_of_find?_eq_some hf, hp, v, hg, ht⟩
  · intro h
    simp only [reduce_events] at h
    cases hl : (events.filter (fun e => typeIs e "turn.completed")).getLast?
      with
    | none => rw [hl] at h; simp at h
    | some e =>
      have h' : (match Json.get e "usage" with
          | some Json.null => none
          | some v => some v
          | none => none).isSome = true := by rw [hl] at h; exact h
      have hmem := List.mem_of_mem_getLast? hl
      rw [List.mem_filter] at hmem
      cases hg : Json.get e "usage" with
      | none => rw [hg] at h'; simp at h'
      | some v =>
        rw [hg] at h'
        cases v with
        | null => simp at h'
        | bool b => exact ⟨e, hmem.1, hmem.2, _, hg, fun hh => by cases hh⟩
        | num n => exact ⟨e, hmem.1, hmem.2, _, hg, fun hh => by cases hh⟩
        | str s => exact ⟨e, hmem.1, hmem.2, _, hg, fun hh => by cases hh⟩
        | arr xs => exact ⟨e, hmem.1, hmem.2, _, hg, fun hh => by cases hh⟩
        | obj fields =>
          exact ⟨e, hmem.1, hmem.2, _, hg, fun hh => by cases hh⟩
  · intro h
    simp only [reduce_events] at h
    cases hl : (events.filterMap agent_message_text).getLast? with
    | none => rw [hl] at h; simp at h
    | some v =>
      have hmem := List.mem_of_mem_getLast? hl
      rw [List.mem_filterMap] at hmem
      obtain ⟨e, he, hfe⟩ := hmem
      exact ⟨e, he, by rw [hfe]; rfl⟩

/-- Witness for C6: the empty sequence gives `event_count = 0`, and on a
sequence where each optional field has source data the three existence
conclusions are realized. -/
theorem reduce_events_sparse_witness :
    ((reduce_events [] 0 0).event_count = 0
      ∧ (reduce_events [] 0 0).thread_id = none)
    ∧ (∃ e, e ∈ sparseEvents ∧ typeIs e "thread.started" = true
        ∧ ∃ v, Json.get e "thread_id" = some v ∧ v.truthy = true)
    ∧ (∃ e, e ∈ sparseEvents ∧ typeIs e "turn.completed" = true
        ∧ ∃ v, Json.get e "usage" = some v ∧ v ≠ Json.null)
    ∧ (∃ e, e ∈ sparseEvents ∧ (agent_message_text e).isSome = true) := by
  refine ⟨⟨(reduce_events_sparse.1 0 0).1, (reduce_events_sparse.1 0 0).2.1⟩,
    ?_, ?_, ?_⟩
  · exact (reduce_events_sparse.2 sparseEvents 0 0).1 rfl
  · exact (reduce_events_sparse.2 sparseEvents 0 0).2.1 rfl
  · exact (reduce_events_sparse.2 sparseEvents 0 0).2.2 rfl

theorem codex_main_found (env : Env) (split : String → List String)
    (prompt : String) (subExit : Int) (hp : prompt ≠ "") :
    codex_main env split true prompt subExit
      = ⟨subExit, true, codex_cmd env split prompt, codex_json_mode env,
         codex_json_mode env == "result", 0⟩ := by
  unfold codex_main
  rw [if_neg (by simp), if_neg hp]

theorem claude_main_found (env : Env) (split : String → List String)
    (prompt : String) (subExit : Int) (hp : prompt ≠ "") :
    claude_main env split true prompt subExit
      = ⟨subExit, true, claude_cmd env split prompt, claude_effort_level env,
         claude_warning_count env⟩ := by
  unfold claude_main
  rw [if_neg (by simp), if_neg hp]

/-- C4: each adapter returns 1 without starting the agent subprocess when the
external binary is absent or the prompt is empty/absent; in every other case
it starts the subprocess and returns the subprocess's own exit code unchanged
(for codex this covers both the captured/reduced mode, whose
`run_codex_json_result` returns `process.returncode`, and direct
passthrough). -/
theorem main_exit_codes (env : Env) (split : String → List String)
    (found : Bool) (prompt : String) (subExit : Int) :
    (found = false →
      (codex_main env split found prompt subExit).exit = 1
      ∧ (codex_main env split found prompt subExit).started = false
      ∧ (claude_main env split found prompt subExit).exit = 1
      ∧ (claude_main env split found prompt subExit).started = false)
    ∧ (prompt = "" →
        (codex_main env split found prompt subExit).exit = 1
        ∧ (codex_main env split found prompt subExit).started = false
        ∧ (claude_main env split found prompt subExit).exit = 1
        ∧ (claude_main env split found prompt subExit).started = false)
    ∧ (found = true → prompt ≠ "" →
        (codex_main env split found prompt subExit).exit = subExit
        ∧ (codex_main env split found prompt subExit).started = true
        ∧ (claude_main env split found prompt subExit).exit = subExit
        ∧ (claude_main env split found prompt subExit).started = true) := by
  refine ⟨?_, ?_, ?_⟩
  · intro h
    subst h
    exact ⟨rfl, rfl, rfl, rfl⟩
  · intro hp
    subst hp
    cases found
    · exact ⟨rfl, rfl, rfl, rfl⟩
    · exact ⟨rfl, rfl, rfl, rfl⟩
  · intro hf hp
    subst hf
    rw [codex_main_found env split prompt subExit hp,
      claude_main_found env split prompt subExit hp]
    exact ⟨rfl, rfl, rfl, rfl⟩

/-- Witness for C4: a missing binary and an empty prompt both give exit 1
with no subprocess; a present binary with prompt `"hi"` propagates the
subprocess's exit code 7. -/
theorem main_exit_codes_witness :
    ((codex_main [] splitWs false "hi" 7).exit = 1
      ∧ (codex_main [] splitWs false "hi" 7).started = false)
    ∧ ((claude_main [] splitWs true "" 7).exit = 1
      ∧ (claude_main [] splitWs true "" 7).started = false)
    ∧ ((codex_main [] splitWs true "hi" 7).exit = 7
      ∧ (claude_main [] splitWs true "hi" 7).exit = 7) := by
  refine ⟨?_, ?_, ?_⟩
  · have h := (main_exit_codes [] splitWs false "hi" 7).1 rfl
    exact ⟨h.1, h.2.1⟩
  · have h := (main_exit_codes [] splitWs true "" 7).2.1 rfl
    exact ⟨h.2.2.1, h.2.2.2⟩
  · have h := (main_exit_codes [] splitWs true "hi" 7).2.2 rfl (by decide)
    exact ⟨h.1, h.2.2.1⟩

theorem codex_json_mode_trajectory (env : Env)
    (htraj : env_truthy env "CODEX_TRAJECTORY" = true) :
    codex_json_mode env = "events" := by
  simp only [codex_json_mode]
  rw [if_pos htraj]

theorem mem_json_codex_cmd (env : Env) (split : String → List String)
    (prompt : String) (hjm : codex_json_mode env ≠ "off") :
    "--json" ∈ codex_cmd env split prompt := by
  simp only [codex_cmd]
  by_cases hmem : "--json" ∈ codex_cmd_pre env split
  · rw [if_neg (by simp [hmem])]
    exact List.mem_append_left _ hmem
  · rw [if_pos ⟨hjm, hmem⟩]
    exact List.mem_append_left _ (List.mem_append_right _ (by simp))

/-- C9: a truthy `CODEX_TRAJECTORY` forces the effective JSON mode to
`events` regardless of `CODEX_JSON_MODE`: the assembled command carries
`--json`, and the reduced-summary path (`run_codex_json_result`) is not
taken, so no summary record is emitted. -/
theorem codex_trajectory_forces_events (env : Env)
    (split : String → List String) (prompt : String) (subExit : Int)
    (htraj : env_truthy env "CODEX_TRAJECTORY" = true) (hp : prompt ≠ "") :
    (codex_main env split true prompt subExit).json_mode = "events"
    ∧ "--json" ∈ (codex_main env split true prompt subExit).cmd
    ∧ (codex_main env split true prompt subExit).usedJsonResult = false := by
  rw [codex_main_found env split prompt subExit hp]
  have hjm := codex_json_mode_trajectory env htraj
  refine ⟨hjm, ?_, ?_⟩
  · show "--json" ∈ codex_cmd env split prompt
    exact mem_json_codex_cmd env split prompt (by rw [hjm]; decide)
  · show (codex_json_mode env == "result") = false
    rw [hjm]
    decide

/-- Witness for C9: with `CODEX_TRAJECTORY=1` and `CODEX_JSON_MODE=off`, the
effective mode is still `events`, `--json` is in the command, and the reduced
path is not taken. -/
theorem codex_trajectory_forces_events_witness :
    (codex_main [("CODEX_TRAJECTORY", "1"), ("CODEX_JSON_MODE", "off")]
        splitWs true "hi" 0).json_mode = "events"
    ∧ "--json" ∈ (codex_main [("CODEX_TRAJECTORY", "1"),
        ("CODEX_JSON_MODE", "off")] splitWs true "hi" 0).cmd
    ∧ (codex_main [("CODEX_TRAJECTORY", "1"), ("CODEX_JSON_MODE", "off")]
        splitWs true "hi" 0).usedJsonResult = false := by
  exact codex_trajectory_forces_events
    [("CODEX_TRAJECTORY", "1"), ("CODEX_JSON_MODE", "off")] splitWs "hi" 0
    (by decide) (by decide)

/-- Counterexample to C7 as stated: with `CODEX_EXEC_ARGS="-a"` and the
default JSON mode, the codex command is
`[codex, exec, …, --ephemeral, -a, --json, hi]` — the shell-split extra token
`-a` is NOT last before the trailing prompt, because the conditionally
appended `--json` flag comes after it. -/
theorem codex_extra_args_not_last :
    (codex_main [("CODEX_EXEC_ARGS", "-a")] splitWs true "hi" 0).cmd
      = ["codex", "exec", "--skip-git-repo-check",
         "--dangerously-bypass-approvals-and-sandbox", "--ephemeral",
         "-a", "--json", "hi"]
    ∧ splitWs "-a" = ["-a"]
    ∧ ¬ List.IsSuffix (splitWs "-a" ++ ["hi"])
        (codex_main [("CODEX_EXEC_ARGS", "-a")] splitWs true "hi" 0).cmd := by
  refine ⟨by decide, by decide, ?_⟩
  rw [List.suffix_iff_eq_drop]
  decide

theorem append_optional_flag_shape (c s : List String) (P : Prop)
    [Decidable P] (p : String) :
    ∃ pre post,
      (if P then (c ++ s) ++ ["--json"] else c ++ s) ++ [p]
        = pre ++ s ++ post ++ [p] ∧ (post = [] ∨ post = ["--json"]) := by
  by_cases h : P
  · refine ⟨c, ["--json"], ?_, Or.inr rfl⟩
    rw [if_pos h]
    try simp
  · refine ⟨c, [], ?_, Or.inl rfl⟩
    rw [if_neg h]
    try simp

/-- C7 amended: both command vectors end with the prompt as the final
positional argument; in the claude adapter the shell-split extra tokens come
immediately before the trailing prompt, after every conditionally appended
flag; in the codex adapter they come after the tuning flags, but the
conditionally appended `--json` flag, when added, follows them — so only
possibly a `--json` token stands between them and the prompt. -/
theorem cmd_vector_shape (env : Env) (split : String → List String)
    (prompt : String) (subExit : Int) (hp : prompt ≠ "") :
    (claude_main env split true prompt subExit).cmd.getLast? = some prompt
    ∧ (codex_main env split true prompt subExit).cmd.getLast? = some prompt
    ∧ (strip (getenv env "CLAUDE_EXEC_ARGS" "") ≠ "" →
        ∃ pre, (claude_main env split true prompt subExit).cmd
          = pre ++ split (strip (getenv env "CLAUDE_EXEC_ARGS" ""))
              ++ [prompt])
    ∧ (strip (getenv env "CODEX_EXEC_ARGS" "") ≠ "" →
        ∃ pre post, (codex_main env split true prompt subExit).cmd
          = pre ++ split (strip (getenv env "CODEX_EXEC_ARGS" ""))
              ++ post ++ [prompt]
          ∧ (post = [] ∨ post = ["--json"])) := by
  rw [codex_main_found env split prompt subExit hp,
    claude_main_found env split prompt subExit hp]
  refine ⟨?_, ?_, ?_, ?_⟩
  · show (claude_cmd env split prompt).getLast? = some prompt
    simp only [claude_cmd]
    exact List.getLast?_concat _
  · show (codex_cmd env split prompt).getLast? = some prompt
    simp only [codex_cmd]
    exact List.getLast?_concat _
  · intro hext
    show ∃ pre, claude_cmd env split prompt = _
    refine ⟨claude_cmd_flags env, ?_⟩
    simp only [claude_cmd]
    rw [if_pos hext, List.append_assoc]
  · intro hext
    show ∃ pre post, codex_cmd env split prompt = _ ∧ _
    have hpre : codex_cmd_pre env split
        = add_codex_tuning_args env ["codex", "exec", "--skip-git-repo-check",
            "--dangerously-bypass-approvals-and-sandbox", "--ephemeral"]
          ++ split (strip (getenv env "CODEX_EXEC_ARGS" "")) := by
      simp only [codex_cmd_pre]
      rw [if_pos hext]
    simp only [codex_cmd]
    rw [hpre]
    exact append_optional_flag_shape _ _ _ _

/-- Witness for C7 amended: with `CLAUDE_EXEC_ARGS="-x"` and
`CODEX_EXEC_ARGS="-a"`, both commands end in the prompt, the claude extra
token directly precedes it, and the codex extra token precedes it up to a
`--json` flag. -/
theorem cmd_vector_shape_witness :
    (claude_main [("CLAUDE_EXEC_ARGS", "-x"), ("CODEX_EXEC_ARGS", "-a")]
        splitWs true "hi" 0).cmd.getLast? = some "hi"
    ∧ (codex_main [("CLAUDE_EXEC_ARGS", "-x"), ("CODEX_EXEC_ARGS", "-a")]
        splitWs true "hi" 0).cmd.getLast? = some "hi"
    ∧ (∃ pre, (claude_main [("CLAUDE_EXEC_ARGS", "-x"),
          ("CODEX_EXEC_ARGS", "-a")] splitWs true "hi" 0).cmd
        = pre ++ splitWs "-x" ++ ["hi"])
    ∧ (∃ pre post, (codex_main [("CLAUDE_EXEC_ARGS", "-x"),
          ("CODEX_EXEC_ARGS", "-a")] splitWs true "hi" 0).cmd
        = pre ++ splitWs "-a" ++ post ++ ["hi"]
        ∧ (post = [] ∨ post = ["--json"])) := by
  have h := cmd_vector_shape
    [("CLAUDE_EXEC_ARGS", "-x"), ("CODEX_EXEC_ARGS", "-a")] splitWs "hi" 0
    (by decide)
  exact ⟨h.1, h.2.1, h.2.2.1 (by decide), h.2.2.2 (by decide)⟩

/-- Counterexample to C8 as stated: an out-of-set `CODEX_JSON_MODE` is
replaced by the default `result` with NO warning emitted (the codex `main`
prints no `[WARNING]` line at all), though execution still proceeds. -/
theorem codex_json_mode_silent_fallback :
    (codex_main [("CODEX_JSON_MODE", "bogus")] splitWs true "hi" 0).warnings
      = 0
    ∧ (codex_main [("CODEX_JSON_MODE", "bogus")] splitWs true "hi" 0).json_mode
      = "result"
    ∧ (codex_main [("CODEX_JSON_MODE", "bogus")] splitWs true "hi"
        0).usedJsonResult = true
    ∧ (codex_main [("CODEX_JSON_MODE", "bogus")] splitWs true "hi" 0).started
      = true := by
  exact ⟨by decide, by decide, by decide, by decide⟩

/-- C8 amended: an out-of-set claude effort level falls back to `high` and
execution proceeds, with a warning exactly when the stripped value is
non-empty; an out-of-set codex JSON mode (without trajectory override)
silently falls back to `result` — no warning — and execution proceeds. -/
theorem tuning_fallback (env : Env) (split : String → List String)
    (prompt : String) (subExit : Int) (hp : prompt ≠ "") :
    (claude_effort_raw env ∉ ["low", "medium", "high"] →
      (claude_main env split true prompt subExit).effort_level = "high"
      ∧ (claude_main env split true prompt subExit).started = true
      ∧ (claude_effort_raw env ≠ "" →
          (claude_main env split true prompt subExit).warnings = 1)
      ∧ (claude_effort_raw env = "" →
          (claude_main env split true prompt subExit).warnings = 0))
    ∧ (lower (strip (getenv env "CODEX_JSON_MODE" "result"))
          ∉ ["result", "events", "off"] →
        env_truthy env "CODEX_TRAJECTORY" = false →
        (codex_main env split true prompt subExit).json_mode = "result"
        ∧ (codex_main env split true prompt subExit).usedJsonResult = true
        ∧ (codex_main env split true prompt subExit).warnings = 0
        ∧ (codex_main env split true prompt subExit).started = true) := by
  constructor
  · intro heff
    rw [claude_main_found env split prompt subExit hp]
    refine ⟨?_, rfl, ?_, ?_⟩
    · show claude_effort_level env = "high"
      simp only [claude_effort_level]
      rw [if_neg heff]
    · intro hne
      show claude_warning_count env = 1
      simp only [claude_warning_count]
      rw [if_pos ⟨heff, hne⟩]
    · intro heq
      show claude_warning_count env = 0
      simp only [claude_warning_count]
      rw [if_neg (by simp [heq])]
  · intro hjm htraj
    rw [codex_main_found env split prompt subExit hp]
    have hmode : codex_json_mode env = "result" := by
      simp only [codex_json_mode]
      rw [if_neg hjm, if_neg (by simp [htraj])]
    refine ⟨hmode, ?_, rfl, rfl⟩
    show (codex_json_mode env == "result") = true
    rw [hmode]
    decide

/-- Witness for C8 amended: `CLAUDE_CODE_EFFORT_LEVEL=MAX` gives effort
`high` with one warning; `CODEX_JSON_MODE=bogus` gives mode `result` with no
warning; both runs proceed. -/
theorem tuning_fallback_witness :
    (claude_main [("CLAUDE_CODE_EFFORT_LEVEL", "MAX"),
        ("CODEX_JSON_MODE", "bogus")] splitWs true "hi" 0).effort_level
      = "high"
    ∧ (claude_main [("CLAUDE_CODE_EFFORT_LEVEL", "MAX"),
        ("CODEX_JSON_MODE", "bogus")] splitWs true "hi" 0).warnings = 1
    ∧ (codex_main [("CLAUDE_CODE_EFFORT_LEVEL", "MAX"),
        ("CODEX_JSON_MODE", "bogus")] splitWs true "hi" 0).json_mode
      = "result"
    ∧ (codex_main [("CLAUDE_CODE_EFFORT_LEVEL", "MAX"),
        ("CODEX_JSON_MODE", "bogus")] splitWs true "hi" 0).warnings = 0 := by
  have h := tuning_fallback [("CLAUDE_CODE_EFFORT_LEVEL", "MAX"),
    ("CODEX_JSON_MODE", "bogus")] splitWs "hi" 0 (by decide)
  have hc := h.1 (by decide)
  have hx := h.2 (by decide) (by decide)
  exact ⟨hc.1, hc.2.2.1 (by decide), hx.1, hx.2.2.1⟩

end Agent
